import Mathlib

/-!
Shallow embedding of the VueTemplate single-page-application sources
(router navigation guard, Pinia stores, API client, `useFetch`
composable and the login form), together with theorems settling the
specification claims about them.

Conventions used throughout:
* JavaScript `null`/`undefined` on a value of type `T` becomes `Option T`.
* JavaScript string truthiness (`!!s`) is explicit: `null`/`undefined`
  and the empty string are falsy, any other string is truthy.
* Thrown JavaScript errors become `Except` results.
* Reactive refs become fields of explicit state records; store actions
  become state-transformer functions.
-/

namespace VueTemplate

/-! ### UI store (`src/stores/ui.ts`)

`theme` is the two-valued ref `"light" | "dark"`; `sidebarOpen` is a
boolean ref initialised to `true`. -/

inductive Theme where
  | light
  | dark
deriving DecidableEq, Repr

structure UIState where
  sidebarOpen : Bool
  theme : Theme
deriving DecidableEq, Repr

/-- Initial UI store state: `sidebarOpen = ref(true)`, `theme = ref("light")`. -/
def UIState.init : UIState := { sidebarOpen := true, theme := Theme.light }

/-- `toggleSidebar`: `sidebarOpen.value = !sidebarOpen.value`. -/
def toggleSidebar (s : UIState) : UIState :=
  { s with sidebarOpen := !s.sidebarOpen }

/-- `toggleTheme`: `theme.value = theme.value === "light" ? "dark" : "light"`. -/
def toggleTheme (s : UIState) : UIState :=
  { s with theme := if s.theme = Theme.light then Theme.dark else Theme.light }

/-- `isDarkMode` getter: `computed(() => theme.value === "dark")`. -/
def isDarkMode (s : UIState) : Bool :=
  s.theme = Theme.dark

/-! ### Router navigation guard (`src/router/index.ts`)

The guard reads the target route's `meta.requiresAuth`, its `name` and
its `fullPath`, plus the auth store's `isAuthenticated` getter.  A
route's `name` may be absent on record groups, hence `Option String`.
The guard either returns a route location (a redirect, possibly with a
`redirect` query parameter) or `true` (allow). -/

structure RouteTo where
  name : Option String
  fullPath : String
  requiresAuth : Bool
deriving DecidableEq, Repr

inductive GuardResult where
  | redirect (name : String) (redirectQuery : Option String)
  | allow
deriving DecidableEq, Repr

/-- The `router.beforeEach` hook:

```
if (to.meta.requiresAuth && !authStore.isAuthenticated) {
  return { name: "login", query: { redirect: toRoute.fullPath } };
}
if (toRoute.name === "login" && authStore.isAuthenticated) {
  return { name: "dashboard" };
}
return true;
```

(The `document.title` assignment is a side effect with no influence on
the returned decision and is not modelled.) -/
def beforeEach (isAuthenticated : Bool) (toRoute : RouteTo) : GuardResult :=
  if toRoute.requiresAuth && !isAuthenticated then
    GuardResult.redirect "login" (some toRoute.fullPath)
  else if toRoute.name == some "login" && isAuthenticated then
    GuardResult.redirect "dashboard" none
  else
    GuardResult.allow

/-! ### Claim theorems for the UI store and the router guard -/

/-- Claim C7: in the UI store, `toggleSidebar` negates `sidebarOpen`,
`toggleTheme` maps light to dark and dark to light, both are
involutions, and `isDarkMode` holds exactly when the theme is dark. -/
theorem ui_store_toggles (s : UIState) (o : Bool) :
    toggleSidebar s = { s with sidebarOpen := !s.sidebarOpen }
    ∧ toggleSidebar (toggleSidebar s) = s
    ∧ toggleTheme { sidebarOpen := o, theme := Theme.light }
        = { sidebarOpen := o, theme := Theme.dark }
    ∧ toggleTheme { sidebarOpen := o, theme := Theme.dark }
        = { sidebarOpen := o, theme := Theme.light }
    ∧ toggleTheme (toggleTheme s) = s
    ∧ (isDarkMode s = true ↔ s.theme = Theme.dark) := by
  obtain ⟨sb, th⟩ := s
  cases th <;> cases sb <;> simp [toggleSidebar, toggleTheme, isDarkMode]

/-- Claim C1: the guard redirects to `login` (carrying the target's
`fullPath` as the `redirect` query) exactly when the target requires
auth and the store is unauthenticated; otherwise it redirects to
`dashboard` exactly when the target is the `login` route and the store
is authenticated; in every other case it allows the navigation. -/
theorem beforeEach_two_rules (isAuth : Bool) (toRoute : RouteTo) :
    (beforeEach isAuth toRoute = GuardResult.redirect "login" (some toRoute.fullPath)
      ↔ toRoute.requiresAuth = true ∧ isAuth = false)
    ∧ (beforeEach isAuth toRoute = GuardResult.redirect "dashboard" none
      ↔ toRoute.name = some "login" ∧ isAuth = true)
    ∧ (beforeEach isAuth toRoute = GuardResult.allow
      ↔ ¬(toRoute.requiresAuth = true ∧ isAuth = false)
        ∧ ¬(toRoute.name = some "login" ∧ isAuth = true)) := by
  obtain ⟨nm, fp, ra⟩ := toRoute
  by_cases hnm : nm = some "login" <;>
    cases isAuth <;> cases ra <;>
      simp [beforeEach, hnm]

/-! ### Validators (`src/lib/validators.ts`)

`isValidEmail` tests the regex `/^[^\s@]+@[^\s@]+\.[^\s@]+$/`.  The
anchored pattern accepts a string exactly when it decomposes as
`a ++ "@" ++ b ++ "." ++ c` with `a`, `b`, `c` non-empty and every
character of them neither whitespace nor `"@"` (so the string holds a
single `"@"`, while `b` and `c` may themselves hold further dots).  The
matcher below implements that decomposition with structural recursion:
split at the (necessarily unique) `"@"`, then look for a dot in the
remainder that has at least one character on each side. -/

/-- The JavaScript regex character class `\s` (ASCII whitespace plus the
Unicode space separators, line/paragraph separators, NBSP, and BOM). -/
def jsWhitespace (c : Char) : Bool :=
  c = ' ' || c = '\t' || c = '\n' || c = '\r' || c = '\x0b' || c = '\x0c' ||
  c = ' ' || c = ' ' || (' ' ≤ c && c ≤ ' ') ||
  c = ' ' || c = ' ' || c = ' ' || c = ' ' ||
  c = '　' || c = '﻿'

/-- A character matched by the regex class `[^\s@]`. -/
def emailAtomChar (c : Char) : Bool :=
  !jsWhitespace c && c != '@'

/-- Split a character list at the first occurrence of `sep`; `none` when
`sep` does not occur. -/
def breakAt (sep : Char) : List Char → Option (List Char × List Char)
  | [] => none
  | c :: rest =>
    if c == sep then some ([], rest)
    else (breakAt sep rest).map (fun p => (c :: p.1, p.2))

/-- Is there a `'.'` strictly before the last position?  (Used on the
tail of the domain part: a dot at its very end would leave `[^\s@]+`
after `\.` nothing to match.) -/
def dotBeforeEnd : List Char → Bool
  | [] => false
  | [_] => false
  | c :: rest => c == '.' || dotBeforeEnd rest

/-- Is there a `'.'` at an interior position (neither first nor last)? -/
def hasInteriorDot : List Char → Bool
  | [] => false
  | _ :: rest => dotBeforeEnd rest

/-- Acceptance of `/^[^\s@]+@[^\s@]+\.[^\s@]+$/` on a character list:
split at the first `"@"`; the part before it must be a non-empty run of
`[^\s@]` characters; the part after it must consist of `[^\s@]`
characters (this excludes any second `"@"`) and contain an interior dot
splitting it into two non-empty halves. -/
def emailRegexAccepts (cs : List Char) : Bool :=
  match breakAt '@' cs with
  | none => false
  | some (localPart, domainPart) =>
    !localPart.isEmpty && localPart.all emailAtomChar &&
    domainPart.all emailAtomChar && hasInteriorDot domainPart

/-- `isValidEmail`: `/^[^\s@]+@[^\s@]+\.[^\s@]+$/.test(email)`. -/
def isValidEmail (email : String) : Bool :=
  emailRegexAccepts email.toList

/-- `isMinLength`: `value.length >= min`. -/
def isMinLength (value : String) (min : Nat) : Bool :=
  decide (min ≤ value.length)

/-! ### Login form (`src/components/features/auth/LoginForm.vue`)

The form keeps `email` and `password` refs; `emailError` and
`passwordError` are computed hints (absent while the field is empty),
`isFormValid` gates both the submit button (`:disabled="!isFormValid"`)
and `handleSubmit`'s early return. -/

/-- `emailError`: `undefined` when the field is empty or the email is
valid, the message string otherwise. -/
def emailError (email : String) : Option String :=
  if email.isEmpty then none
  else if isValidEmail email then none
  else some "Invalid email address"

/-- `passwordError`: `undefined` when the field is empty or long enough,
the message string otherwise. -/
def passwordError (password : String) : Option String :=
  if password.isEmpty then none
  else if isMinLength password 6 then none
  else some "Password must be at least 6 characters"

/-- `isFormValid`: `email.value && password.value && !emailError.value
&& !passwordError.value` (string truthiness: non-empty; error refs must
be `undefined`). -/
def isFormValid (email password : String) : Bool :=
  !email.isEmpty && !password.isEmpty &&
  (emailError email).isNone && (passwordError password).isNone

/-- The submit button's `disabled` binding: `!isFormValid`. -/
def submitDisabled (email password : String) : Bool :=
  !isFormValid email password

/-- JavaScript `s.startsWith(pre)`. -/
def jsStartsWith (s pre : String) : Bool :=
  pre.toList.isPrefixOf s.toList

/-- A vue-router query entry: `route.query["redirect"]` has runtime type
`string | null | (string | null)[] | undefined` (the source's
`as string | undefined` cast is erased at runtime and does not narrow
it). -/
inductive QueryValue where
  | undef
  | nullv
  | str (s : String)
  | arr (vs : List (Option String))
deriving DecidableEq, Repr

/-- Observable outcome of one `handleSubmit` run: early return with no
login attempt, a `router.push(target)`, or the catch branch setting the
error message (with no navigation). -/
inductive SubmitOutcome where
  | noAttempt
  | navigated (target : String)
  | errorShown (message : String)
deriving DecidableEq, Repr

/-- The target expression
`redirect?.startsWith("/") ? redirect : "/dashboard"`.

Optional chaining short-circuits to `undefined` (falsy) on `undefined`
and `null`; on a string it calls `startsWith`; on an array the
`startsWith` property is `undefined` and calling it throws a
`TypeError`, modelled as `Except.error`. -/
def postLoginTarget : QueryValue → Except Unit String
  | QueryValue.undef => Except.ok "/dashboard"
  | QueryValue.nullv => Except.ok "/dashboard"
  | QueryValue.str s => Except.ok (if jsStartsWith s "/" then s else "/dashboard")
  | QueryValue.arr _ => Except.error ()

/-- `handleSubmit`: early return unless `isFormValid`; then `try { await
login; compute target; router.push(target) } catch { error.value =
"Invalid email or password."; }`.  `loginSucceeds` abstracts whether
`authStore.login` resolves; the catch also receives the `TypeError` of
the array case, in which case no `router.push` happens. -/
def handleSubmit (email password : String) (loginSucceeds : Bool)
    (redirect : QueryValue) : SubmitOutcome :=
  if !isFormValid email password then SubmitOutcome.noAttempt
  else if !loginSucceeds then SubmitOutcome.errorShown "Invalid email or password."
  else
    match postLoginTarget redirect with
    | Except.ok target => SubmitOutcome.navigated target
    | Except.error _ => SubmitOutcome.errorShown "Invalid email or password."

/-! ### Claim theorems for the login form -/

/-- Bridge between `String.isEmpty` (string truthiness in the sources)
and propositional emptiness. -/
theorem isEmpty_eq_false_iff (s : String) : s.isEmpty = false ↔ s ≠ "" := by
  simp [← String.isEmpty_iff]

/-- Claim C8: the form is valid exactly when the email is non-empty and
passes `isValidEmail` and the password is non-empty with length at least
6; the submit button is disabled exactly when the form is invalid; and
`handleSubmit` makes no login attempt exactly when the form is
invalid. -/
theorem login_form_validation (email password : String) (b : Bool) (red : QueryValue) :
    (isFormValid email password = true ↔
      email ≠ "" ∧ isValidEmail email = true ∧
      password ≠ "" ∧ isMinLength password 6 = true)
    ∧ submitDisabled email password = !isFormValid email password
    ∧ (handleSubmit email password b red = SubmitOutcome.noAttempt ↔
        isFormValid email password = false) := by
  refine ⟨?_, rfl, ?_⟩
  · cases h1 : email.isEmpty <;> cases h2 : password.isEmpty <;>
      cases h3 : isValidEmail email <;> cases h4 : isMinLength password 6 <;>
        simp_all [isFormValid, emailError, passwordError, String.isEmpty_iff,
          isEmpty_eq_false_iff]
  · cases h : isFormValid email password <;>
      cases b <;> cases red <;>
        simp [handleSubmit, h, postLoginTarget]

/-- Claim C9 counterexample: with a valid form, a successful login and
an array-valued `redirect` query (e.g. from
`/login?redirect=/a&redirect=/b`), `handleSubmit` does not navigate to
`"/dashboard"`: the `TypeError` from `redirect?.startsWith("/")` lands
in the catch branch, which shows the error message and pushes no
route. -/
theorem login_redirect_array_counterexample :
    handleSubmit "you@example.com" "secret1" true
        (QueryValue.arr [some "/a", some "/b"])
      = SubmitOutcome.errorShown "Invalid email or password."
    ∧ handleSubmit "you@example.com" "secret1" true
        (QueryValue.arr [some "/a", some "/b"])
      ≠ SubmitOutcome.navigated "/dashboard" := by
  constructor
  · rfl
  · decide

/-- Claim C9 (amended): after a successful login, the router is pushed
to the `redirect` query value exactly when that value is a string
starting with `"/"`; when it is absent, `null`, or a string not starting
with `"/"`, the target is `"/dashboard"`; when it is an array, the
resulting `TypeError` is caught, the error message is shown and no
navigation happens. -/
theorem login_redirect_sanitized (email password : String) (red : QueryValue)
    (hvalid : isFormValid email password = true) :
    (∀ s, red = QueryValue.str s → jsStartsWith s "/" = true →
      handleSubmit email password true red = SubmitOutcome.navigated s)
    ∧ (∀ s, red = QueryValue.str s → jsStartsWith s "/" = false →
      handleSubmit email password true red = SubmitOutcome.navigated "/dashboard")
    ∧ ((red = QueryValue.undef ∨ red = QueryValue.nullv) →
      handleSubmit email password true red = SubmitOutcome.navigated "/dashboard")
    ∧ (∀ vs, red = QueryValue.arr vs →
      handleSubmit email password true red
        = SubmitOutcome.errorShown "Invalid email or password.") := by
  refine ⟨?_, ?_, ?_, ?_⟩
  · rintro s rfl hs
    simp [handleSubmit, hvalid, postLoginTarget, hs]
  · rintro s rfl hs
    simp [handleSubmit, hvalid, postLoginTarget, hs]
  · rintro (rfl | rfl) <;> simp [handleSubmit, hvalid, postLoginTarget]
  · rintro vs rfl
    simp [handleSubmit, hvalid, postLoginTarget]

/-- Witness for `login_redirect_sanitized` at a concrete valid form and
the redirect string `"/settings"`. -/
theorem login_redirect_sanitized_witness :
    isFormValid "you@example.com" "secret1" = true
    ∧ handleSubmit "you@example.com" "secret1" true (QueryValue.str "/settings")
        = SubmitOutcome.navigated "/settings" :=
  ⟨by decide,
    (login_redirect_sanitized "you@example.com" "secret1"
        (QueryValue.str "/settings") (by decide)).1 "/settings" rfl (by decide)⟩

/-! ### Cart store (`src/stores/cart.ts`)

A cart line item has `id`, `name`, `price` and `quantity`.  The claims
about the cart never compute with `price` (a JavaScript number), so its
exact numeric type is immaterial; `Int` keeps every definition
executable.  `quantity` is only ever set to `1` or incremented, hence
`Nat`. -/

structure CartItem where
  id : String
  name : String
  price : Int
  quantity : Nat
deriving DecidableEq, Repr

/-- `existing.quantity += 1`: `Array.prototype.find` returns the first
matching entry, and the in-place mutation bumps exactly that entry. -/
def bumpFirstQuantity : List CartItem → String → List CartItem
  | [], _ => []
  | i :: rest, id =>
    if i.id == id then { i with quantity := i.quantity + 1 } :: rest
    else i :: bumpFirstQuantity rest id

/-- `addItem`:

```
const existing = items.value.find((i) => i.id === item.id);
if (existing) { existing.quantity += 1; }
else { items.value.push({ ...item, quantity: 1 }); }
``` -/
def addItem (items : List CartItem) (id name : String) (price : Int) : List CartItem :=
  match items.find? (fun i => i.id == id) with
  | some _ => bumpFirstQuantity items id
  | none => items ++ [{ id := id, name := name, price := price, quantity := 1 }]

/-- `removeItem`: `items.value = items.value.filter((item) => item.id !== id)`. -/
def removeItem (items : List CartItem) (id : String) : List CartItem :=
  items.filter (fun i => i.id != id)

/-- `clearCart`: `items.value = []`. -/
def clearCart (_items : List CartItem) : List CartItem := []

/-- One cart store action call. -/
inductive CartOp where
  | add (id name : String) (price : Int)
  | remove (id : String)
  | clear
deriving DecidableEq, Repr

def applyCartOp (items : List CartItem) : CartOp → List CartItem
  | CartOp.add id name price => addItem items id name price
  | CartOp.remove id => removeItem items id
  | CartOp.clear => clearCart items

/-- The cart state reached from the initial empty cart (`ref([])`) by a
sequence of action calls. -/
def runCart (ops : List CartOp) : List CartItem :=
  ops.foldl applyCartOp []

/-! ### Cart store lemmas -/

theorem mem_bumpFirstQuantity_quantity {items : List CartItem} {id : String}
    (h : ∀ i ∈ items, 1 ≤ i.quantity) :
    ∀ i ∈ bumpFirstQuantity items id, 1 ≤ i.quantity := by
  induction items with
  | nil => simp [bumpFirstQuantity]
  | cons j rest ih =>
    intro i hi
    simp only [bumpFirstQuantity] at hi
    by_cases hj : (j.id == id) = true
    · rw [if_pos hj] at hi
      rcases List.mem_cons.mp hi with rfl | hmem
      · exact Nat.le_add_left 1 j.quantity
      · exact h i (List.mem_cons_of_mem j hmem)
    · rw [if_neg hj] at hi
      rcases List.mem_cons.mp hi with rfl | hmem
      · exact h _ (by simp)
      · exact ih (fun k hk => h k (List.mem_cons_of_mem j hk)) i hmem

theorem mem_applyCartOp_quantity {items : List CartItem}
    (h : ∀ i ∈ items, 1 ≤ i.quantity) (op : CartOp) :
    ∀ i ∈ applyCartOp items op, 1 ≤ i.quantity := by
  cases op with
  | add id name price =>
    simp only [applyCartOp, addItem]
    cases hf : items.find? (fun i => i.id == id) with
    | some x => exact mem_bumpFirstQuantity_quantity h
    | none =>
      intro i hi
      rcases List.mem_append.mp hi with hmem | hmem
      · exact h i hmem
      · rcases List.mem_singleton.mp hmem with rfl
        exact Nat.le_refl 1
  | remove id =>
    intro i hi
    exact h i (List.mem_of_mem_filter hi)
  | clear => simp [applyCartOp, clearCart]

theorem runCart_quantity_aux (ops : List CartOp) :
    ∀ items : List CartItem, (∀ i ∈ items, 1 ≤ i.quantity) →
      ∀ i ∈ ops.foldl applyCartOp items, 1 ≤ i.quantity := by
  induction ops with
  | nil => intro items h; simpa using h
  | cons op rest ih =>
    intro items h
    exact ih (applyCartOp items op) (mem_applyCartOp_quantity h op)

/-- `bumpFirstQuantity` leaves every `id` in place. -/
theorem map_id_bumpFirstQuantity (items : List CartItem) (id : String) :
    (bumpFirstQuantity items id).map (fun i => i.id)
      = items.map (fun i => i.id) := by
  induction items with
  | nil => rfl
  | cons j rest ih =>
    simp only [bumpFirstQuantity]
    by_cases hj : (j.id == id) = true
    · rw [if_pos hj]; rfl
    · rw [if_neg hj]; simpa using ih

/-- The cart's `find`-by-id comes up empty exactly when the id is not
among the items' ids. -/
theorem find?_id_eq_none_iff (items : List CartItem) (id : String) :
    items.find? (fun i => i.id == id) = none
      ↔ id ∉ items.map (fun i => i.id) := by
  rw [List.find?_eq_none]
  constructor
  · intro h hmem
    rcases List.mem_map.mp hmem with ⟨a, ha, haid⟩
    exact h a ha (by simpa using haid)
  · intro h a ha hba
    exact h (List.mem_map.mpr ⟨a, ha, by simpa using hba⟩)

theorem runCart_ids_nodup_aux (ops : List CartOp) :
    ∀ items : List CartItem, (items.map (fun i => i.id)).Nodup →
      ((ops.foldl applyCartOp items).map (fun i => i.id)).Nodup := by
  induction ops with
  | nil => intro items h; simpa using h
  | cons op rest ih =>
    intro items h
    refine ih (applyCartOp items op) ?_
    cases op with
    | add id name price =>
      simp only [applyCartOp, addItem]
      cases hf : items.find? (fun i => i.id == id) with
      | some x => simpa [map_id_bumpFirstQuantity] using h
      | none =>
        have hno : id ∉ items.map (fun i => i.id) :=
          (find?_id_eq_none_iff items id).mp hf
        show ((items ++
            [({ id := id, name := name, price := price, quantity := 1 } : CartItem)]).map
          (fun i => i.id)).Nodup
        rw [List.map_append, List.nodup_append]
        refine ⟨h, ?_, ?_⟩
        · show ([id] : List String).Nodup
          exact List.nodup_singleton id
        · intro a ha hb
          have hb' : a = id := by simpa using hb
          subst hb'
          exact hno ha
    | remove id =>
      exact h.sublist (List.Sublist.map _ (List.filter_sublist items))
    | clear => simp [applyCartOp, clearCart]

/-- When the ids are distinct and `id` occurs, bumping the first match
is the same as bumping the (unique) matching item pointwise. -/
theorem bumpFirstQuantity_eq_map (items : List CartItem) (id : String)
    (hnd : (items.map (fun i => i.id)).Nodup)
    (hmem : id ∈ items.map (fun i => i.id)) :
    bumpFirstQuantity items id
      = items.map
          (fun i => if i.id = id then { i with quantity := i.quantity + 1 } else i) := by
  induction items with
  | nil => simp at hmem
  | cons j rest ih =>
    rw [List.map_cons, List.nodup_cons] at hnd
    simp only [bumpFirstQuantity, List.map_cons]
    by_cases hj : j.id = id
    · rw [if_pos (beq_iff_eq.mpr hj), if_pos hj]
      have hrest : rest.map
          (fun i => if i.id = id then { i with quantity := i.quantity + 1 } else i)
            = rest := by
        have hcong : ∀ k ∈ rest,
            (if k.id = id then { k with quantity := k.quantity + 1 } else k) = k := by
          intro k hk
          have hkid : k.id ≠ id := by
            intro hkid
            apply hnd.1
            rw [hj]
            exact hkid ▸ List.mem_map_of_mem (fun i => i.id) hk
          exact if_neg hkid
        rw [List.map_congr_left hcong, List.map_id' rest]
      rw [hrest]
    · rw [if_neg (by simpa using hj), if_neg hj]
      have hmem' : id ∈ rest.map (fun i => i.id) := by
        rw [List.map_cons, List.mem_cons] at hmem
        rcases hmem with h | h
        · exact absurd h.symm hj
        · exact h
      rw [ih hnd.2 hmem']

/-! ### Claim theorems for the cart store -/

/-- Claim C4: in every cart state reachable from the empty cart by
`addItem`, `removeItem` and `clearCart` calls, every item's quantity is
at least 1. -/
theorem cart_quantity_ge_one (ops : List CartOp) :
    (runCart ops).all (fun i => decide (1 ≤ i.quantity)) = true := by
  rw [List.all_eq_true]
  intro i hi
  simpa using runCart_quantity_aux ops [] (by simp) i hi

/-- Claim C10: in every reachable cart state the item ids are pairwise
distinct; `addItem` with a present id bumps exactly that item's quantity
by 1 (keeping the length and every other item), and with a fresh id
appends a single quantity-1 entry. -/
theorem cart_ids_nodup_addItem_upsert (ops : List CartOp) (id name : String) (price : Int) :
    ((runCart ops).map (fun i => i.id)).Nodup
    ∧ (id ∈ (runCart ops).map (fun i => i.id) →
        addItem (runCart ops) id name price
          = (runCart ops).map
              (fun i => if i.id = id then { i with quantity := i.quantity + 1 } else i)
        ∧ (addItem (runCart ops) id name price).length = (runCart ops).length)
    ∧ (id ∉ (runCart ops).map (fun i => i.id) →
        addItem (runCart ops) id name price
          = runCart ops ++ [{ id := id, name := name, price := price, quantity := 1 }]) := by
  have hnd : ((runCart ops).map (fun i => i.id)).Nodup :=
    runCart_ids_nodup_aux ops [] (by simp)
  refine ⟨hnd, ?_, ?_⟩
  · intro hmem
    cases hf : (runCart ops).find? (fun i => i.id == id) with
    | none => exact absurd ((find?_id_eq_none_iff _ _).mp hf) (by simp [hmem])
    | some x =>
      have heq : addItem (runCart ops) id name price
          = bumpFirstQuantity (runCart ops) id := by
        simp [addItem, hf]
      rw [heq, bumpFirstQuantity_eq_map _ _ hnd hmem]
      exact ⟨rfl, List.length_map _ _⟩
  · intro hno
    have hf : (runCart ops).find? (fun i => i.id == id) = none :=
      (find?_id_eq_none_iff _ _).mpr hno
    simp [addItem, hf]

/-- Witness for `cart_ids_nodup_addItem_upsert`: after adding item
`"a"` once, adding it again takes the pointwise-bump form (quantity 2),
and adding a fresh item `"b"` appends a quantity-1 entry. -/
theorem cart_addItem_upsert_witness :
    addItem (runCart [CartOp.add "a" "Apple" 5]) "a" "Apple" 5
      = (runCart [CartOp.add "a" "Apple" 5]).map
          (fun i => if i.id = "a" then { i with quantity := i.quantity + 1 } else i)
    ∧ addItem (runCart [CartOp.add "a" "Apple" 5]) "b" "Pear" 3
      = runCart [CartOp.add "a" "Apple" 5]
          ++ [{ id := "b", name := "Pear", price := 3, quantity := 1 }] :=
  ⟨((cart_ids_nodup_addItem_upsert [CartOp.add "a" "Apple" 5] "a" "Apple" 5).2.1
      (by decide)).1,
    (cart_ids_nodup_addItem_upsert [CartOp.add "a" "Apple" 5] "b" "Pear" 3).2.2
      (by decide)⟩

/-! ### Auth store (`src/stores/auth.ts`) -/

/-- The user profile (`@/types/user`): `id`, `name`, `email`, `role`,
`createdAt`.  The claims never inspect the field values and the type
declaration file is not under `src/`; the spec lists exactly these five
fields, carried here as strings. -/
structure User where
  id : String
  name : String
  email : String
  role : String
  createdAt : String
deriving DecidableEq, Repr

/-- Auth store state: the `user`, `token` and `isLoading` refs plus the
`localStorage` slot `"access_token"` that the store mirrors the token
into. -/
structure AuthState where
  user : Option User
  token : Option String
  isLoading : Bool
  storedToken : Option String
deriving DecidableEq, Repr

/-- JavaScript truthiness of a `string | null | undefined` value
(`!!s`): `null`, `undefined` and the empty string are falsy. -/
def jsTruthyStr : Option String → Bool
  | none => false
  | some s => !s.isEmpty

/-- `isAuthenticated` getter: `computed(() => !!token.value)`. -/
def isAuthenticated (s : AuthState) : Bool :=
  jsTruthyStr s.token

/-- `logout`: null out the `user` and `token` refs and remove the stored
token. -/
def logout (s : AuthState) : AuthState :=
  { s with user := none, token := none, storedToken := none }

/-- Net effect of one `login` call.  When `api.post("/auth/login")`
resolves (`some (token, user)`): both refs and the stored token are set
and the `finally` block resets `isLoading`.  When it rejects (`none`):
the error is logged and re-thrown, and only `isLoading` is reset. -/
def login (s : AuthState) : Option (String × User) → AuthState
  | some (tok, u) =>
    { s with user := some u, token := some tok, storedToken := some tok,
             isLoading := false }
  | none => { s with isLoading := false }

/-- Store initialisation: `token = ref(localStorage.getItem("access_token"))`
followed by `loadStoredUser()`.  The latter takes
`stored.split(".")[1]`; a missing or empty (falsy) payload slot skips
decoding, otherwise `atob` + `JSON.parse` run — modelled by the
`decodePayload` parameter, whose `none` means the decode threw — and a
decode error triggers `logout()`. -/
def initAuth (stored : Option String) (decodePayload : String → Option User) : AuthState :=
  let s0 : AuthState :=
    { user := none, token := stored, isLoading := false, storedToken := stored }
  match stored with
  | none => s0
  | some tok =>
    match (tok.splitOn ".")[1]? with
    | none => s0
    | some payload =>
      if payload.isEmpty then s0
      else
        match decodePayload payload with
        | some u => { s0 with user := some u }
        | none => logout s0

/-- Claim C5: a present (non-null, non-empty — the empty string is falsy
under `!!`, as the claim's own parenthetical states) token is exactly
what makes `isAuthenticated` true, and the relation persists across
`logout`, `login` (in both outcomes) and store initialisation. -/
theorem token_presence_authenticated (s : AuthState) (tok : String) (u : User)
    (stored : Option String) (decodePayload : String → Option User) :
    (isAuthenticated s = true ↔ ∃ t, s.token = some t ∧ t ≠ "")
    ∧ isAuthenticated (logout s) = false
    ∧ isAuthenticated (login s (some (tok, u))) = !tok.isEmpty
    ∧ isAuthenticated (login s none) = isAuthenticated s
    ∧ isAuthenticated (initAuth none decodePayload) = false
    ∧ isAuthenticated (initAuth stored decodePayload)
        = jsTruthyStr (initAuth stored decodePayload).token := by
  refine ⟨?_, rfl, rfl, rfl, rfl, rfl⟩
  cases htok : s.token with
  | none => simp [isAuthenticated, jsTruthyStr, htok]
  | some t => simp [isAuthenticated, jsTruthyStr, htok, isEmpty_eq_false_iff]

/-! ### API client (`src/lib/api.ts`) -/

/-- A JavaScript error value, as far as the claims distinguish them: a
generic `Error` (as produced by `new Error(msg)`) or the `SyntaxError` a
failed `response.json()` rejects with. -/
inductive JsError where
  | genericError (message : String)
  | syntaxError (message : String)
deriving DecidableEq, Repr

/-- A settled `fetch` response: its status line and the result of
`response.json()` (`Except.error` with the parse message when the body
is not valid JSON). -/
structure FetchResponse (J : Type) where
  status : Nat
  statusText : String
  jsonBody : Except String J
deriving Repr

/-- `Response.ok` (whatwg fetch): the status is in the 2xx range. -/
def FetchResponse.ok {J : Type} (r : FetchResponse J) : Bool :=
  decide (200 ≤ r.status) && decide (r.status ≤ 299)

/-- `ApiClient.request`:

```
const response = await fetch(url, { ...options, headers });
if (!response.ok) {
  throw new Error(`HTTP [status]: [statusText]`);
}
return response.json();
```

(The bearer-token header attachment does not affect the result
modelled here.) -/
def request {J : Type} (r : FetchResponse J) : Except JsError J :=
  if !r.ok then
    Except.error (JsError.genericError
      ("HTTP " ++ toString r.status ++ ": " ++ r.statusText))
  else
    match r.jsonBody with
    | Except.ok v => Except.ok v
    | Except.error msg => Except.error (JsError.syntaxError msg)

inductive HttpMethod where
  | get
  | post
  | put
  | delete
deriving DecidableEq, Repr

/-- `get`, `post`, `put` and `delete` each delegate to
`this.request(path, options)`; the method, body and headers never enter
the response handling. -/
def methodRequest {J : Type} (_m : HttpMethod) (r : FetchResponse J) : Except JsError J :=
  request r

/-- Claim C2: every API-client method throws a generic `Error` exactly
when the response is non-2xx (`response.ok` false), and on a 2xx
response it returns exactly the JSON-parse result of the body. -/
theorem request_generic_error_iff_not_ok (J : Type) (m : HttpMethod) (r : FetchResponse J) :
    methodRequest m r = request r
    ∧ ((∃ msg, request r = Except.error (JsError.genericError msg)) ↔ r.ok = false)
    ∧ (r.ok = true →
        request r = r.jsonBody.mapError (fun msg => JsError.syntaxError msg)) := by
  refine ⟨rfl, ?_, ?_⟩
  · cases hok : r.ok with
    | false => simp [request, hok]
    | true =>
      cases hb : r.jsonBody <;> simp [request, hok, hb]
  · intro hok
    cases hb : r.jsonBody <;> simp [request, hok, hb, Except.mapError]

/-- Witness for `request_generic_error_iff_not_ok` on a concrete 2xx
response with a parsed body. -/
theorem request_generic_error_iff_not_ok_witness :
    FetchResponse.ok ({ status := 200, statusText := "OK", jsonBody := Except.ok 42 } : FetchResponse Nat) = true
    ∧ request ({ status := 200, statusText := "OK", jsonBody := Except.ok 42 } : FetchResponse Nat) = Except.ok 42 :=
  ⟨rfl, by
    have h := (request_generic_error_iff_not_ok Nat HttpMethod.get
      { status := 200, statusText := "OK", jsonBody := Except.ok 42 }).2.2 rfl
    simpa [Except.mapError] using h⟩

/-! ### `useFetch` composable (`src/composables/useFetch.ts`) -/

/-- The composable's reactive state: the `data`, `error` and `isLoading`
refs. -/
structure UseFetchState (J : Type) where
  data : Option J
  error : Option JsError
  isLoading : Bool
deriving DecidableEq, Repr

/-- How the awaited part of one `execute` call settles: the fetch (or
the subsequent `response.json()`) rejects with the `AbortError`
`DOMException`; the fetch rejects with an ordinary error; or a response
arrives, carrying its status and JSON-parse result. -/
inductive FetchOutcome (J : Type) where
  | aborted
  | failed (e : JsError)
  | response (r : FetchResponse J)

/-- One full `execute` run on the reactive refs.  It starts with
`isLoading.value = true; error.value = null;`, then inside `try`:

* `AbortError`: `if (e instanceof DOMException && e.name === "AbortError")
  return;` — neither `data` nor `error` is touched (the `finally` block
  still clears `isLoading`);
* another rejection: `error.value = e`;
* a non-ok response: `throw new Error("HTTP " + status)`, caught by the
  same `catch` and stored;
* an ok response: the parse result lands in `data`, or its
  `SyntaxError` in `error`. -/
def execute {J : Type} (s : UseFetchState J) : FetchOutcome J → UseFetchState J
  | FetchOutcome.aborted =>
    { s with error := none, isLoading := false }
  | FetchOutcome.failed e =>
    { s with error := some e, isLoading := false }
  | FetchOutcome.response r =>
    if !r.ok then
      { s with error := some (JsError.genericError ("HTTP " ++ toString r.status)),
               isLoading := false }
    else
      match r.jsonBody with
      | Except.ok v =>
        { s with data := some v, error := none, isLoading := false }
      | Except.error msg =>
        { s with error := some (JsError.syntaxError msg), isLoading := false }

/-- Claim C3: an aborted fetch is swallowed silently: `execute`
completes with the `error` ref still `null`, the `data` ref unchanged,
and the spinner cleared. -/
theorem aborted_fetch_swallowed (J : Type) (s : UseFetchState J) :
    (execute s FetchOutcome.aborted).error = none
    ∧ (execute s FetchOutcome.aborted).data = s.data
    ∧ (execute s FetchOutcome.aborted).isLoading = false :=
  ⟨rfl, rfl, rfl⟩

/-! ### Abort-controller protocol of `useFetch`

`useFetch` keeps one `controller` variable.  `execute` synchronously
(before its first `await`, so atomically on the event loop) runs
`abort()` — `controller?.abort(); controller = null;` — and then wires
its own fetch to a fresh `AbortController`; `onScopeDispose(abort)`
aborts on scope teardown.  The model tracks which request ids are in
flight and which id the live controller governs. -/

inductive UFEvent where
  | execute
  | settle (id : Nat)
  | abortCall
  | dispose
deriving DecidableEq, Repr

structure UFConc where
  nextId : Nat
  controller : Option Nat
  inFlight : List Nat
deriving DecidableEq, Repr

/-- `abort()`: aborting the current controller takes the request wired
to its signal out of flight and nulls the variable. -/
def ufAbort (s : UFConc) : UFConc :=
  { s with inFlight := s.inFlight.filter (fun i => s.controller != some i),
           controller := none }

/-- Composable setup: no controller, nothing in flight. -/
def ufInit : UFConc := { nextId := 0, controller := none, inFlight := [] }

def ufStep (s : UFConc) : UFEvent → UFConc
  | UFEvent.execute =>
    let s' := ufAbort s
    { nextId := s'.nextId + 1, controller := some s'.nextId,
      inFlight := s'.inFlight ++ [s'.nextId] }
  | UFEvent.settle id => { s with inFlight := s.inFlight.filter (fun i => i != id) }
  | UFEvent.abortCall => ufAbort s
  | UFEvent.dispose => ufAbort s

def ufRun (evs : List UFEvent) : UFConc :=
  evs.foldl ufStep ufInit

/-- Controller-protocol invariant: nothing is in flight, or the single
in-flight request is the one the current controller governs. -/
def UFInv (s : UFConc) : Prop :=
  s.inFlight = [] ∨ ∃ c, s.controller = some c ∧ s.inFlight = [c]

theorem ufAbort_inFlight (s : UFConc) (h : UFInv s) : (ufAbort s).inFlight = [] := by
  rcases h with h | ⟨c, hc, hf⟩
  · simp [ufAbort, h]
  · simp [ufAbort, hc, hf, List.filter]

theorem ufStep_inv (s : UFConc) (h : UFInv s) (e : UFEvent) : UFInv (ufStep s e) := by
  cases e with
  | execute =>
    right
    exact ⟨(ufAbort s).nextId, rfl, by rw [ufStep, ufAbort_inFlight s h]; rfl⟩
  | settle id =>
    rcases h with hf | ⟨c, hc, hf⟩
    · left; simp [ufStep, hf]
    · by_cases hcid : c = id
      · left; simp [ufStep, hf, hcid, List.filter]
      · right
        exact ⟨c, hc, by simp [ufStep, hf, List.filter, hcid]⟩
  | abortCall => exact Or.inl (ufAbort_inFlight s h)
  | dispose => exact Or.inl (ufAbort_inFlight s h)

theorem ufRun_inv (evs : List UFEvent) : UFInv (ufRun evs) := by
  suffices aux : ∀ s, UFInv s → UFInv (evs.foldl ufStep s) from aux ufInit (Or.inl rfl)
  induction evs with
  | nil => intro s h; exact h
  | cons e rest ih => intro s h; exact ih (ufStep s e) (ufStep_inv s h e)

/-- Claim C6: at most one request of a `useFetch` instance is ever in
flight; `execute` leaves exactly its own fresh request in flight,
governed by the controller it just created; and scope disposal aborts
whatever is in flight. -/
theorem useFetch_single_controller (evs : List UFEvent) :
    (ufRun evs).inFlight.length ≤ 1
    ∧ (ufRun (evs ++ [UFEvent.execute])).inFlight = [(ufRun evs).nextId]
    ∧ (ufRun (evs ++ [UFEvent.execute])).controller = some (ufRun evs).nextId
    ∧ (ufRun (evs ++ [UFEvent.dispose])).inFlight = [] := by
  have hinv := ufRun_inv evs
  have hfold : ∀ e, ufRun (evs ++ [e]) = ufStep (ufRun evs) e := by
    intro e
    simp [ufRun, List.foldl_append]
  refine ⟨?_, ?_, ?_, ?_⟩
  · rcases hinv with h | ⟨c, hc, hf⟩
    · simp [h]
    · simp [hf]
  · rw [hfold, ufStep, ufAbort_inFlight _ hinv]
    rfl
  · rw [hfold]
    rfl
  · rw [hfold]
    exact ufAbort_inFlight _ hinv

end VueTemplate
